import Mathlib

/-!
Shallow embedding of the result-handling core of generate_video.py
(tonypwastaken/veo3).  Strings are modelled as List Char, byte strings as
List Nat (each element < 256).  Python functions returning True/False/None
are modelled as Option Bool (none stands for the implicit None returned
when control falls off the end of the function); the blanket try/except
blocks of the source are built into the definitions where they change the
returned value.
-/

namespace Veo

/-! Base64, modelling base64.b64encode and the lenient (validate=False)
base64.b64decode of CPython (Modules/binascii.c, legacy mode). -/

/-- Standard base64 alphabet, as in binascii's table_b2a_base64. -/
def b64table : List Char :=
  "ABCDEFGHIJKLMNOPQRSTUVWXYZabcdefghijklmnopqrstuvwxyz0123456789+/".toList

/-- Character for a 6-bit group (b2a direction). -/
def b64char (n : Nat) : Char := b64table.getD n 'A'

/-- Value of a character in the base64 alphabet (a2b direction); none for
characters outside the alphabet (table_a2b_base64 value -1). -/
def b64val (c : Char) : Option Nat :=
  if 'A' ≤ c ∧ c ≤ 'Z' then some (c.toNat - 65)
  else if 'a' ≤ c ∧ c ≤ 'z' then some (c.toNat - 97 + 26)
  else if '0' ≤ c ∧ c ≤ '9' then some (c.toNat - 48 + 52)
  else if c = '+' then some 62
  else if c = '/' then some 63
  else none

/-- Model of base64.b64encode (binascii.b2a_base64 with no trailing
newline): 3-byte groups become 4 alphabet characters; a 2-byte tail
becomes 3 characters and one pad; a 1-byte tail becomes 2 characters and
two pads. -/
def b2a : List Nat → List Char
  | a :: b :: c :: rest =>
      b64char (a / 4) :: b64char ((a % 4) * 16 + b / 16) ::
      b64char ((b % 16) * 4 + c / 64) :: b64char (c % 64) :: b2a rest
  | [a, b] =>
      [b64char (a / 4), b64char ((a % 4) * 16 + b / 16),
       b64char ((b % 16) * 4), '=']
  | [a] =>
      [b64char (a / 4), b64char ((a % 4) * 16), '=', '=']
  | [] => []

/-- Model of CPython binascii.a2b_base64 in legacy (non-strict) mode: the
state is (remaining input, quad position, accumulated bit value, pad count,
output).  Characters outside the alphabet are discarded; a pad character is
ignored while fewer than two data characters stand in the current quad
(the C condition quad_pos greater-equal 2 short-circuits before
incrementing pads); a completed pad sequence emits the pending 1 or 2
bytes and stops; ending with a partial quad is an error (none), which is
the binascii.Error("Incorrect padding") respectively the
"1 more than a multiple of 4" error. -/
def a2b : List Char → Nat → Nat → Nat → List Nat → Option (List Nat)
  | [], 0, _, _, acc => some acc
  | [], _ + 1, _, _, _ => none
  | c :: rest, qp, lc, pads, acc =>
      if c = '=' then
        if 2 ≤ qp then
          if 4 ≤ qp + (pads + 1) then
            if qp = 2 then some (acc ++ [lc / 16 % 256])
            else some (acc ++ [lc / 1024 % 256, lc / 4 % 256])
          else a2b rest qp lc (pads + 1) acc
        else a2b rest qp lc pads acc
      else
        match b64val c with
        | none => a2b rest qp lc pads acc
        | some v =>
            match qp with
            | 0 => a2b rest 1 v 0 acc
            | 1 => a2b rest 2 (lc * 64 + v) 0 acc
            | 2 => a2b rest 3 (lc * 64 + v) 0 acc
            | _ => a2b rest 0 0 0
                (acc ++ [(lc * 64 + v) / 65536 % 256,
                         (lc * 64 + v) / 256 % 256,
                         (lc * 64 + v) % 256])

/-- Model of base64.b64decode on a str argument: the string is first
encoded as ASCII (any code point above 127 raises, modelled as none), then
fed to the legacy a2b automaton. -/
def b64decodePy (s : List Char) : Option (List Nat) :=
  if s.all (fun c => c.toNat ≤ 127) then a2b s 0 0 0 [] else none

/-- Strict validity of a standard (RFC 4648) base64 string: length a
multiple of 4, at most two trailing pad characters, every other character
in the alphabet.  Used only to state counterexamples about what the code
accepts beyond standard base64. -/
def isStdB64 (s : List Char) : Bool :=
  let core := (s.reverse.dropWhile (· = '=')).reverse
  decide (s.length % 4 = 0) &&
  decide (s.length - core.length ≤ 2) &&
  core.all (fun c => (b64val c).isSome)

/-! Model of download_video_from_gcs (generate_video.py lines 139-170).
The outcome records which exit path is taken; network traffic (the
storage.Client / bucket / blob calls) happens only on the fetch outcome.
The skippedNoSlash outcome models the ValueError raised by unpacking
split("/", 1) when the remainder holds no slash, which the blanket except
of the function turns into the same False return. -/

inductive FetchOutcome where
  | skippedEmpty
  | skippedBadScheme
  | skippedNoSlash
  | fetch (bucket key : List Char)
deriving DecidableEq, Repr

/-- Test for the literal scheme marker, as gcs_uri.startswith("gs://"). -/
def startsWithGs : List Char → Bool
  | 'g' :: 's' :: ':' :: '/' :: '/' :: _ => true
  | _ => false

/-- First five characters of every well-formed URI, the characters of
"gs://". -/
def gsHead : List Char := ['g', 's', ':', '/', '/']

/-- Model of str.split("/", 1) followed by unpacking into two names:
some (before, after) splits at the first slash; none models the
ValueError when no slash occurs. -/
def splitOnce : List Char → Option (List Char × List Char)
  | [] => none
  | c :: cs =>
      if c = '/' then some ([], cs)
      else
        match splitOnce cs with
        | some (a, b) => some (c :: a, b)
        | none => none

/-- Control-flow model of download_video_from_gcs: empty URI and wrong
scheme return False before any storage-client call; a missing slash in
the remainder raises ValueError, caught by the blanket except (False);
otherwise bucket and key are resolved and the download is attempted. -/
def download_video_from_gcs (gcs_uri : List Char) : FetchOutcome :=
  if gcs_uri = [] then FetchOutcome.skippedEmpty
  else if startsWithGs gcs_uri = false then FetchOutcome.skippedBadScheme
  else
    match splitOnce (gcs_uri.drop 5) with
    | none => FetchOutcome.skippedNoSlash
    | some (bucket, key) => FetchOutcome.fetch bucket key

/-- Boolean return value of download_video_from_gcs, given an oracle net
telling for each bucket and key whether the storage-layer download
succeeds (every storage exception is caught and turned into False). -/
def downloadResult (net : List Char → List Char → Bool)
    (gcs_uri : List Char) : Bool :=
  match download_video_from_gcs gcs_uri with
  | FetchOutcome.fetch bucket key => net bucket key
  | _ => false

/-! Model of generate_filename (generate_video.py lines 124-136). -/

/-- Invocation instant at second resolution, the data consumed by
datetime.now().strftime("%Y%m%d_%H%M%S"). -/
structure Timestamp where
  year : Nat
  month : Nat
  day : Nat
  hour : Nat
  minute : Nat
  second : Nat
deriving DecidableEq, Repr

/-- Decimal digit character. -/
def digitChar (n : Nat) : Char := Char.ofNat (48 + n % 10)

/-- Two zero-padded decimal digits, as the strftime fields m d H M S. -/
def pad2 (n : Nat) : List Char := [digitChar (n / 10 % 10), digitChar (n % 10)]

/-- Four decimal digits, as strftime %Y for the years datetime.now can
yield in practice (4-digit years). -/
def pad4 (n : Nat) : List Char :=
  [digitChar (n / 1000 % 10), digitChar (n / 100 % 10),
   digitChar (n / 10 % 10), digitChar (n % 10)]

/-- Model of strftime("%Y%m%d_%H%M%S"). -/
def formatTimestamp (t : Timestamp) : List Char :=
  pad4 t.year ++ pad2 t.month ++ pad2 t.day ++ '_' ::
  (pad2 t.hour ++ pad2 t.minute ++ pad2 t.second)

/-- Characters kept by the comprehension
c.isalnum() or c in (" ", "-", "_").  Python isalnum is Unicode aware; the
ASCII reading is used here, identically on both the source-side and the
spec-side definitions. -/
def keepChar (c : Char) : Bool :=
  c.isAlphanum || c = ' ' || c = '-' || c = '_'

/-- Python str whitespace stripped by str.rstrip() with no argument (the
six ASCII whitespace characters; after the keepChar filter only the plain
space can actually occur). -/
def isPySpace (c : Char) : Bool :=
  c = ' ' || c = '\t' || c = '\n' || c = '\x0d' || c = '\x0b' || c = '\x0c'

/-- Model of str.rstrip(): drop trailing whitespace. -/
def py_rstrip (s : List Char) : List Char :=
  (s.reverse.dropWhile isPySpace).reverse

/-- Model of generate_filename: filter the prompt to the kept characters,
strip trailing whitespace, replace each space by an underscore, keep the
first 30 characters, then append an underscore, the timestamp, a dot and
the extension. -/
def generate_filename (prompt : List Char) (extension : List Char)
    (t : Timestamp) : List Char :=
  ((py_rstrip (prompt.filter keepChar)).map
      (fun c => if c = ' ' then '_' else c)).take 30 ++
  '_' :: (formatTimestamp t ++ '.' :: extension)

/-- Modelled from the claim wording of the NameGenerator algorithm: the
seed text restricted to alphanumerics, spaces, hyphens and underscores,
trailing whitespace removed, internal whitespace turned into underscores,
truncated to the first 30 characters.  Stated separately from
generate_filename so the two can be compared. -/
def sanitizeSpec (seed : List Char) : List Char :=
  (((py_rstrip (seed.filter keepChar)).map
      (fun c => if c = ' ' then '_' else c)).take 30)

/-! Model of the raw result payload of a completed job and of the
result-handling dispatch of generate_text_to_video (lines 299-414) and
generate_image_to_video (lines 458-552).  An Option field set to none
models a missing attribute (hasattr false); where the source combines
hasattr with a truthiness test the Python value None behaves exactly as a
missing attribute and is folded into none. -/

/-- Value of a video_data attribute: Python str (base64 text) or bytes. -/
inductive VideoData where
  | text (s : List Char)
  | bytes (b : List Nat)
deriving DecidableEq, Repr

/-- Video sub-object of a generated item: optional video_bytes and
optional uri attributes (none is a missing attribute; an empty value is
present but falsy). -/
structure VideoObj where
  video_bytes : Option (List Nat)
  uri : Option (List Char)
deriving DecidableEq, Repr

/-- One element of operation.result.generated_videos.  The video field is
none when the attribute is missing or is None (the source tests
hasattr(video_info, "video") and video_info.video is not None as one
guard). -/
structure GeneratedVideo where
  video : Option VideoObj
  video_data : Option VideoData
deriving DecidableEq, Repr

/-- One element of operation.result.videos.  Here the source tests
hasattr separately from truthiness, so a present-but-falsy value (Python
None or empty string) must stay distinguishable from a missing attribute:
none is a missing attribute, some none a present falsy value, and
some (some s) a present string s (falsy when empty). -/
structure VideosItem where
  gcsUri : Option (Option (List Char))
  uri : Option (Option (List Char))
deriving DecidableEq, Repr

/-- Shape of operation.result relevant to the dispatch. -/
structure OpResult where
  generated_videos : Option (List GeneratedVideo)
  video_data : Option VideoData
  videos : Option (List VideosItem)
deriving DecidableEq, Repr

/-- Truthiness of an optional bytes attribute (the guard
hasattr(v, "video_bytes") and v.video_bytes). -/
def truthyBytes : Option (List Nat) → Bool
  | some b => decide (b ≠ [])
  | none => false

/-- Truthiness of an optional string attribute (the guard
hasattr(v, "uri") and v.uri). -/
def truthyStr : Option (List Char) → Bool
  | some s => decide (s ≠ [])
  | none => false

/-- Guard hasattr(r, field) and r.field for a list-valued attribute
(true exactly on a present non-empty list). -/
def listGuard {α : Type} : Option (List α) → Bool
  | some (_ :: _) => true
  | _ => false

/-- Decode-and-save step shared by the video_data branches: a str value
goes through base64.b64decode (a decode exception escapes to the blanket
except of the generating function, which returns False); the resulting
bytes go to save_video_data, whose boolean is returned directly. -/
def saveVideoData (save : List Nat → Bool) : VideoData → Option Bool
  | VideoData.text s =>
      match b64decodePy s with
      | some bs => some (save bs)
      | none => some false
  | VideoData.bytes bs => some (save bs)

/-- Dispatch on the first generated item (lines 328-373 of the text path,
identical in the image path).  In the video branch a failed save or a
failed download is reported but the function still returns True; the
video_data branch returns the save result directly; an item with neither
attribute falls off the end of the function (none, the Python None). -/
def handleItem (save : List Nat → Bool)
    (net : List Char → List Char → Bool)
    (item : GeneratedVideo) : Option Bool :=
  match item.video with
  | some v =>
      if truthyBytes v.video_bytes then
        if save (v.video_bytes.getD []) then some true else some true
      else if truthyStr v.uri then
        if downloadResult net (v.uri.getD []) then some true else some true
      else some true
  | none =>
      match item.video_data with
      | some vd => saveVideoData save vd
      | none => none

/-- Branch on the first element of operation.result.videos
(lines 386-399, text path only): hasattr(gcsUri) is tested first and, if
it holds, the uri attribute is never consulted; the download runs only on
a truthy value; on a falsy value or a failed download control falls off
the end of the function (none). -/
def handleVideosItem (net : List Char → List Char → Bool)
    (item : VideosItem) : Option Bool :=
  match item.gcsUri with
  | some (some s) =>
      if s ≠ [] then
        if downloadResult net s then some true else none
      else none
  | some none => none
  | none =>
      match item.uri with
      | some (some s) =>
          if s ≠ [] then
            if downloadResult net s then some true else none
          else none
      | some none => none
      | none => none

/-- Result-handling dispatch of generate_text_to_video for a completed
job with a response (lines 315-410): first a non-empty generated_videos
list, else a top-level video_data attribute, else a non-empty videos
list, else the success-with-no-artifact branch returning True. -/
def handleResult (save : List Nat → Bool)
    (net : List Char → List Char → Bool) (r : OpResult) : Option Bool :=
  match r.generated_videos with
  | some (item :: _) => handleItem save net item
  | _ =>
      match r.video_data with
      | some vd => saveVideoData save vd
      | none =>
          match r.videos with
          | some (item :: _) => handleVideosItem net item
          | _ => some true

/-- Result-handling dispatch of generate_image_to_video (lines 474-548):
identical to the text path except that the videos-list branch does not
exist, so everything beyond the first two shapes reaches the
success-with-no-artifact branch. -/
def handleResultImage (save : List Nat → Bool)
    (net : List Char → List Char → Bool) (r : OpResult) : Option Bool :=
  match r.generated_videos with
  | some (item :: _) => handleItem save net item
  | _ =>
      match r.video_data with
      | some vd => saveVideoData save vd
      | none => some true

/-- Python truthiness of the value returned by the generating functions,
as tested by if success: in main (True is the only truthy outcome; False
and the implicit None are both falsy). -/
def pyTruthyRet : Option Bool → Bool
  | some true => true
  | _ => false

/-- Filename computed by the text path (line 312), default extension
mp4. -/
def text_local_filename (prompt : List Char) (t : Timestamp) : List Char :=
  generate_filename prompt "mp4".toList t

/-- Filename computed by the image path (line 471): the seed is the
prompt with the marker image_to_video_ prepended. -/
def image_local_filename (prompt : List Char) (t : Timestamp) : List Char :=
  generate_filename ("image_to_video_".toList ++ prompt) "mp4".toList t

/-! Model of the polling loop (lines 293-297): while not operation.done,
sleep for the fixed interval, then re-fetch the operation.  The fetch
stream f gives the status returned by the j-th client.operations.get
call; fuel bounds the unbounded source loop so the model is total, with
none as the still-running verdict when fuel runs out. -/

/-- Status of the remote operation; operation.done is true on both the
done and the failed outcome. -/
inductive PStatus where
  | pending
  | done
  | failed
deriving DecidableEq, Repr

/-- Loop condition operation.done. -/
def isDone : PStatus → Bool
  | PStatus.pending => false
  | _ => true

/-- Observable actions of one loop iteration, in order. -/
inductive PollAction where
  | sleepFor (seconds : Nat)
  | fetchStatus
deriving DecidableEq, Repr

/-- Trace of m poll iterations: each iteration sleeps first and fetches
second. -/
def iterTrace (interval : Nat) : Nat → List PollAction
  | 0 => []
  | m + 1 =>
      PollAction.sleepFor interval :: PollAction.fetchStatus ::
      iterTrace interval m

/-- Model of the polling loop: test the condition, and while the
operation is not done, sleep, fetch the next status and loop.  Returns
the action trace and the final status (none when fuel runs out while the
job is still pending). -/
def pollLoop (interval : Nat) (f : Nat → PStatus) (fuel : Nat) (k : Nat)
    (st : PStatus) : List PollAction × Option PStatus :=
  if isDone st then ([], some st)
  else
    match fuel with
    | 0 => ([], none)
    | fuel' + 1 =>
        let r := pollLoop interval f fuel' (k + 1) (f k)
        (PollAction.sleepFor interval :: PollAction.fetchStatus :: r.1,
         r.2)

/-! Helper lemmas. -/

/-- Splitting at the first slash of b ++ slash ++ k recovers b and k when
b holds no slash. -/
theorem splitOnce_append (b k : List Char) (h : '/' ∉ b) :
    splitOnce (b ++ '/' :: k) = some (b, k) := by
  induction b with
  | nil => simp [splitOnce]
  | cons c cs ih =>
      have hc : c ≠ '/' := fun hceq => h (hceq ▸ List.mem_cons_self c cs)
      have hcs : '/' ∉ cs := fun hm => h (List.mem_cons_of_mem c hm)
      simp [splitOnce, hc, ih hcs]

/-- A slash-free string has no first slash to split at. -/
theorem splitOnce_no_slash (b : List Char) (h : '/' ∉ b) :
    splitOnce b = none := by
  induction b with
  | nil => rfl
  | cons c cs ih =>
      have hc : c ≠ '/' := fun hceq => h (hceq ▸ List.mem_cons_self c cs)
      have hcs : '/' ∉ cs := fun hm => h (List.mem_cons_of_mem c hm)
      simp [splitOnce, hc, ih hcs]

/-- The decode table inverts the encode table on every 6-bit value. -/
theorem b64val_b64char : ∀ n, n < 64 → b64val (b64char n) = some n := by
  decide

/-- No alphabet character is the pad character. -/
theorem b64char_ne_pad : ∀ n, n < 64 → b64char n ≠ '=' := by decide

/-- Every alphabet character is ASCII. -/
theorem b64char_ascii_lt : ∀ n, n < 64 → (b64char n).toNat ≤ 127 := by
  decide

/-- Automaton step on a data character at quad position 0. -/
theorem a2b_step0 (c : Char) (v : Nat) (hv : b64val c = some v)
    (hne : c ≠ '=') (rest : List Char) (lc pads : Nat) (acc : List Nat) :
    a2b (c :: rest) 0 lc pads acc = a2b rest 1 v 0 acc := by
  simp [a2b, hv, hne]

/-- Automaton step on a data character at quad position 1. -/
theorem a2b_step1 (c : Char) (v : Nat) (hv : b64val c = some v)
    (hne : c ≠ '=') (rest : List Char) (lc pads : Nat) (acc : List Nat) :
    a2b (c :: rest) 1 lc pads acc = a2b rest 2 (lc * 64 + v) 0 acc := by
  simp [a2b, hv, hne]

/-- Automaton step on a data character at quad position 2. -/
theorem a2b_step2 (c : Char) (v : Nat) (hv : b64val c = some v)
    (hne : c ≠ '=') (rest : List Char) (lc pads : Nat) (acc : List Nat) :
    a2b (c :: rest) 2 lc pads acc = a2b rest 3 (lc * 64 + v) 0 acc := by
  simp [a2b, hv, hne]

/-- Automaton step on a data character completing a quad: three bytes
are emitted. -/
theorem a2b_step3 (c : Char) (v : Nat) (hv : b64val c = some v)
    (hne : c ≠ '=') (rest : List Char) (lc pads : Nat) (acc : List Nat) :
    a2b (c :: rest) 3 lc pads acc =
      a2b rest 0 0 0
        (acc ++ [(lc * 64 + v) / 65536 % 256, (lc * 64 + v) / 256 % 256,
                 (lc * 64 + v) % 256]) := by
  simp [a2b, hv, hne]

/-- First pad character after two data characters: the pad count starts
and the automaton continues. -/
theorem a2b_pad2_first (rest : List Char) (lc : Nat) (acc : List Nat) :
    a2b ('=' :: rest) 2 lc 0 acc = a2b rest 2 lc 1 acc := by
  simp [a2b]

/-- Second pad character after two data characters: one byte is emitted
and the automaton stops. -/
theorem a2b_pad2_second (rest : List Char) (lc : Nat) (acc : List Nat) :
    a2b ('=' :: rest) 2 lc 1 acc = some (acc ++ [lc / 16 % 256]) := by
  simp [a2b]

/-- Pad character after three data characters: two bytes are emitted and
the automaton stops. -/
theorem a2b_pad3 (rest : List Char) (lc pads : Nat) (acc : List Nat) :
    a2b ('=' :: rest) 3 lc pads acc =
      some (acc ++ [lc / 1024 % 256, lc / 4 % 256]) := by
  have h4 : 4 ≤ 3 + (pads + 1) := by omega
  simp [a2b, h4]

/-- Every character emitted by the encoder is ASCII, so the
str.encode("ascii") step of b64decode cannot fail on an encoder
output. -/
theorem b2a_all_ascii :
    ∀ n (d : List Nat), d.length ≤ n → (∀ x ∈ d, x < 256) →
      (b2a d).all (fun c => c.toNat ≤ 127) = true := by
  intro n
  induction n with
  | zero =>
      intro d hlen _
      match d, hlen with
      | [], _ => rfl
  | succ n ih =>
      intro d hlen hb
      have hpad : '='.toNat ≤ 127 := by decide
      match d with
      | [] => rfl
      | [a] =>
          have ha : a < 256 := hb a (by simp)
          have k1 := b64char_ascii_lt (a / 4) (by omega)
          have k2 := b64char_ascii_lt (a % 4 * 16) (by omega)
          simp [b2a, k1, k2, hpad]
      | [a, b] =>
          have ha : a < 256 := hb a (by simp)
          have hbb : b < 256 := hb b (by simp)
          have k1 := b64char_ascii_lt (a / 4) (by omega)
          have k2 := b64char_ascii_lt (a % 4 * 16 + b / 16) (by omega)
          have k3 := b64char_ascii_lt (b % 16 * 4) (by omega)
          simp [b2a, k1, k2, k3, hpad]
      | a :: b :: c :: rest =>
          have ha : a < 256 := hb a (by simp)
          have hbb : b < 256 := hb b (by simp)
          have hc : c < 256 := hb c (by simp)
          have hr := ih rest (by simp at hlen; omega)
            (fun x hx => hb x (by simp [hx]))
          have k1 := b64char_ascii_lt (a / 4) (by omega)
          have k2 := b64char_ascii_lt (a % 4 * 16 + b / 16) (by omega)
          have k3 := b64char_ascii_lt (b % 16 * 4 + c / 64) (by omega)
          have k4 := b64char_ascii_lt (c % 64) (by omega)
          simp [b2a, k1, k2, k3, k4, hr]

/-- Running the decode automaton on an encoder output appends exactly
the encoded bytes to the accumulator, for any starting pad count. -/
theorem a2b_b2a :
    ∀ n (d : List Nat), d.length ≤ n → (∀ x ∈ d, x < 256) →
      ∀ pads acc, a2b (b2a d) 0 0 pads acc = some (acc ++ d) := by
  intro n
  induction n with
  | zero =>
      intro d hlen _ pads acc
      match d, hlen with
      | [], _ => simp [b2a, a2b]
  | succ n ih =>
      intro d hlen hb pads acc
      match d with
      | [] => simp [b2a, a2b]
      | [a] =>
          have ha : a < 256 := hb a (by simp)
          have h1 : a / 4 < 64 := by omega
          have h2 : a % 4 * 16 < 64 := by omega
          rw [show b2a [a] = b64char (a / 4) :: b64char (a % 4 * 16) ::
                '=' :: '=' :: [] from rfl,
              a2b_step0 _ _ (b64val_b64char _ h1) (b64char_ne_pad _ h1),
              a2b_step1 _ _ (b64val_b64char _ h2) (b64char_ne_pad _ h2),
              a2b_pad2_first, a2b_pad2_second]
          have : (a / 4 * 64 + a % 4 * 16) / 16 % 256 = a := by omega
          rw [this]
      | [a, b] =>
          have ha : a < 256 := hb a (by simp)
          have hbb : b < 256 := hb b (by simp)
          have h1 : a / 4 < 64 := by omega
          have h2 : a % 4 * 16 + b / 16 < 64 := by omega
          have h3 : b % 16 * 4 < 64 := by omega
          rw [show b2a [a, b] = b64char (a / 4) ::
                b64char (a % 4 * 16 + b / 16) :: b64char (b % 16 * 4) ::
                '=' :: [] from rfl,
              a2b_step0 _ _ (b64val_b64char _ h1) (b64char_ne_pad _ h1),
              a2b_step1 _ _ (b64val_b64char _ h2) (b64char_ne_pad _ h2),
              a2b_step2 _ _ (b64val_b64char _ h3) (b64char_ne_pad _ h3),
              a2b_pad3]
          have e1 : ((a / 4 * 64 + (a % 4 * 16 + b / 16)) * 64 + b % 16 * 4) /
              1024 % 256 = a := by omega
          have e2 : ((a / 4 * 64 + (a % 4 * 16 + b / 16)) * 64 + b % 16 * 4) /
              4 % 256 = b := by omega
          rw [e1, e2]
      | a :: b :: c :: rest =>
          have ha : a < 256 := hb a (by simp)
          have hbb : b < 256 := hb b (by simp)
          have hc : c < 256 := hb c (by simp)
          have h1 : a / 4 < 64 := by omega
          have h2 : a % 4 * 16 + b / 16 < 64 := by omega
          have h3 : b % 16 * 4 + c / 64 < 64 := by omega
          have h4 : c % 64 < 64 := by omega
          rw [show b2a (a :: b :: c :: rest) = b64char (a / 4) ::
                b64char (a % 4 * 16 + b / 16) ::
                b64char (b % 16 * 4 + c / 64) :: b64char (c % 64) ::
                b2a rest from rfl,
              a2b_step0 _ _ (b64val_b64char _ h1) (b64char_ne_pad _ h1),
              a2b_step1 _ _ (b64val_b64char _ h2) (b64char_ne_pad _ h2),
              a2b_step2 _ _ (b64val_b64char _ h3) (b64char_ne_pad _ h3),
              a2b_step3 _ _ (b64val_b64char _ h4) (b64char_ne_pad _ h4)]
          have e1 : ((a / 4 * 64 + (a % 4 * 16 + b / 16)) * 64 +
              (b % 16 * 4 + c / 64)) * 64 + c % 64 =
              a * 65536 + b * 256 + c := by omega
          have e2 : (a * 65536 + b * 256 + c) / 65536 % 256 = a := by omega
          have e3 : (a * 65536 + b * 256 + c) / 256 % 256 = b := by omega
          have e4 : (a * 65536 + b * 256 + c) % 256 = c := by omega
          rw [e1, e2, e3, e4,
              ih rest (by simp at hlen; omega)
                (fun x hx => hb x (by simp [hx])) 0 (acc ++ [a, b, c])]
          simp

/-- The lenient Python decode inverts the encoder exactly: decoding an
encoded byte string recovers the bytes. -/
theorem b64decodePy_b2a (d : List Nat) (hd : ∀ x ∈ d, x < 256) :
    b64decodePy (b2a d) = some d := by
  unfold b64decodePy
  rw [if_pos (b2a_all_ascii d.length d le_rfl hd),
      a2b_b2a d.length d le_rfl hd 0 []]
  simp

/-- Soundness of the polling loop model, generalized over the fetch
index: a run that ends with some final status consists of m sleep-fetch
iterations; the final status is done; with zero iterations it is the
entry status; otherwise the entry status was not done, the final status
is the m-th fetched one, and every earlier fetched status was not
done. -/
theorem pollLoop_sound (interval : Nat) (f : Nat → PStatus) :
    ∀ fuel k st tr s, pollLoop interval f fuel k st = (tr, some s) →
      isDone s = true ∧
      ∃ m, tr = iterTrace interval m ∧
        (m = 0 → s = st) ∧
        (0 < m → isDone st = false ∧ s = f (k + m - 1) ∧
          ∀ j, j + 1 < m → isDone (f (k + j)) = false) := by
  intro fuel
  induction fuel with
  | zero =>
      intro k st tr s h
      cases hd : isDone st with
      | true =>
          simp [pollLoop, hd] at h
          obtain ⟨h1, h2⟩ := h
          subst h1; subst h2
          exact ⟨hd, 0, rfl, fun _ => rfl, fun hm => absurd hm (by omega)⟩
      | false => simp [pollLoop, hd] at h
  | succ fuel' ih =>
      intro k st tr s h
      cases hd : isDone st with
      | true =>
          simp [pollLoop, hd] at h
          obtain ⟨h1, h2⟩ := h
          subst h1; subst h2
          exact ⟨hd, 0, rfl, fun _ => rfl, fun hm => absurd hm (by omega)⟩
      | false =>
          simp only [pollLoop, hd, Bool.false_eq_true, if_false] at h
          rcases hp : pollLoop interval f fuel' (k + 1) (f k) with ⟨tr', os⟩
          rw [hp] at h
          simp only [Prod.mk.injEq] at h
          obtain ⟨h1, h2⟩ := h
          subst h2
          obtain ⟨hs, m', htr', hm0, hmpos⟩ := ih (k + 1) (f k) tr' s hp
          refine ⟨hs, m' + 1, ?_, fun hm => by omega, fun _ => ⟨rfl, ?_, ?_⟩⟩
          · rw [← h1, htr']; rfl
          · rw [show k + (m' + 1) - 1 = k + m' from by omega]
            rcases Nat.eq_zero_or_pos m' with hz | hpos
            · subst hz
              simpa using hm0 rfl
            · have h3 := (hmpos hpos).2.1
              rwa [show k + 1 + m' - 1 = k + m' from by omega] at h3
          · intro j hj
            match j, hj with
            | 0, hj =>
                have hm'pos : 0 < m' := by omega
                have := (hmpos hm'pos).1
                simpa using this
            | j' + 1, hj =>
                have := (hmpos (by omega)).2.2 j' (by omega)
                have harg : k + 1 + j' = k + (j' + 1) := by omega
                rw [harg] at this
                exact this

/-! Claim theorems. -/

/-- C6: download_video_from_gcs returns the skipped outcome without any
storage-client call on the empty URI and on every URI that does not begin
with the gs scheme marker (for example "not-a-valid-uri"), and on a
well-formed URI it resolves the bucket as the segment before the first
slash after the marker and the key as the verbatim remainder, slashes
included (for example bucket "bucket-x" and key "dir/clip.mp4"). -/
theorem c6_uri_validation_and_parse :
    (download_video_from_gcs [] = FetchOutcome.skippedEmpty ∧
       ∀ net, downloadResult net [] = false) ∧
    (∀ uri, uri ≠ [] → startsWithGs uri = false →
       download_video_from_gcs uri = FetchOutcome.skippedBadScheme ∧
       ∀ net, downloadResult net uri = false) ∧
    (download_video_from_gcs "not-a-valid-uri".toList =
       FetchOutcome.skippedBadScheme) ∧
    (∀ b k, '/' ∉ b →
       download_video_from_gcs (gsHead ++ (b ++ '/' :: k)) =
         FetchOutcome.fetch b k) ∧
    (download_video_from_gcs "gs://bucket-x/dir/clip.mp4".toList =
       FetchOutcome.fetch "bucket-x".toList "dir/clip.mp4".toList) := by
  refine ⟨⟨rfl, fun net => rfl⟩, ?_, by decide, ?_, by decide⟩
  · intro uri h1 h2
    have hd : download_video_from_gcs uri = FetchOutcome.skippedBadScheme := by
      unfold download_video_from_gcs
      rw [if_neg h1, if_pos h2]
    exact ⟨hd, fun net => by unfold downloadResult; rw [hd]⟩
  · intro b k h
    unfold download_video_from_gcs
    rw [if_neg (by simp [gsHead]), if_neg (by simp [gsHead, startsWithGs])]
    show (match splitOnce (List.drop 5 (gsHead ++ (b ++ '/' :: k))) with
      | none => FetchOutcome.skippedNoSlash
      | some (bucket, key) => FetchOutcome.fetch bucket key) = _
    rw [show List.drop 5 (gsHead ++ (b ++ '/' :: k)) = b ++ '/' :: k from rfl,
        splitOnce_append b k h]

/-- C6 witness: the general conjuncts applied at the concrete bucket
"bucket-x" with key "dir/clip.mp4" and at the schemeless URI "x". -/
theorem c6_witness :
    download_video_from_gcs
        (gsHead ++ ("bucket-x".toList ++ '/' :: "dir/clip.mp4".toList)) =
      FetchOutcome.fetch "bucket-x".toList "dir/clip.mp4".toList ∧
    download_video_from_gcs ['x'] = FetchOutcome.skippedBadScheme :=
  ⟨c6_uri_validation_and_parse.2.2.2.1 "bucket-x".toList "dir/clip.mp4".toList
      (by decide),
   (c6_uri_validation_and_parse.2.1 ['x'] (by decide) (by decide)).1⟩

/-- C10: a URI that begins with the gs marker but whose remainder holds
no slash (for example "gs://bucketonly") passes the scheme check, yet the
function returns the skipped outcome (the ValueError raised when
unpacking split("/", 1) is caught by the blanket except and turned into
False) instead of raising to the caller, and no download is attempted. -/
theorem c10_no_slash_after_scheme (b : List Char) (h : '/' ∉ b) :
    startsWithGs (gsHead ++ b) = true ∧
    download_video_from_gcs (gsHead ++ b) = FetchOutcome.skippedNoSlash ∧
    ∀ net, downloadResult net (gsHead ++ b) = false := by
  have h1 : startsWithGs (gsHead ++ b) = true := rfl
  have h2 : download_video_from_gcs (gsHead ++ b) =
      FetchOutcome.skippedNoSlash := by
    unfold download_video_from_gcs
    rw [if_neg (by simp [gsHead]), if_neg (by simp [h1])]
    show (match splitOnce (List.drop 5 (gsHead ++ b)) with
      | none => FetchOutcome.skippedNoSlash
      | some (bucket, key) => FetchOutcome.fetch bucket key) = _
    rw [show List.drop 5 (gsHead ++ b) = b from rfl, splitOnce_no_slash b h]
  exact ⟨h1, h2, fun net => by unfold downloadResult; rw [h2]⟩

/-- C10 witness: the theorem at the concrete URI "gs://bucketonly". -/
theorem c10_witness :
    download_video_from_gcs (gsHead ++ "bucketonly".toList) =
      FetchOutcome.skippedNoSlash :=
  (c10_no_slash_after_scheme "bucketonly".toList (by decide)).2.1

/-- C7: generate_filename always returns the sanitized seed (characters
restricted to alphanumerics, spaces, hyphens, underscores; trailing
whitespace dropped; remaining spaces turned into underscores; truncated
to 30 characters) followed by an underscore, the 15-character
YYYYMMDD_HHMMSS timestamp, a dot and the extension; when the seed
sanitizes to nothing the result is the well-formed timestamp-only form,
and the function never fails (it is total). -/
theorem c7_generate_filename (p e : List Char) (t : Timestamp) :
    generate_filename p e t =
      sanitizeSpec p ++ '_' :: (formatTimestamp t ++ '.' :: e) ∧
    (sanitizeSpec p).length ≤ 30 ∧
    (∀ c ∈ sanitizeSpec p, (c.isAlphanum || c = '-' || c = '_') = true) ∧
    (formatTimestamp t).length = 15 ∧
    (sanitizeSpec p = [] →
       generate_filename p e t = '_' :: (formatTimestamp t ++ '.' :: e)) := by
  refine ⟨rfl, ?_, ?_, ?_, ?_⟩
  · simp [sanitizeSpec, List.length_take]
  · intro c hc
    have hc2 := List.take_subset 30 _ hc
    rcases List.mem_map.mp hc2 with ⟨a, ha, rfl⟩
    have ha2 : a ∈ p.filter keepChar := by
      have hsub := (List.dropWhile_sublist (l := (p.filter keepChar).reverse)
        (p := isPySpace)).subset
      have hmem : a ∈ (p.filter keepChar).reverse.dropWhile isPySpace := by
        simpa [py_rstrip] using ha
      exact List.mem_reverse.mp (hsub hmem)
    have hk : keepChar a = true := (List.mem_filter.mp ha2).2
    by_cases hsp : a = ' '
    · simp [hsp]
    · simp only [if_neg hsp]
      simp only [keepChar, Bool.or_eq_true, decide_eq_true_eq] at hk
      rcases hk with ((h1 | h2) | h3) | h4
      · simp [h1]
      · exact absurd h2 hsp
      · simp [h3]
      · simp [h4]
  · simp [formatTimestamp, pad4, pad2]
  · intro h
    show sanitizeSpec p ++ '_' :: (formatTimestamp t ++ '.' :: e) = _
    rw [h, List.nil_append]

/-- C7 witness: a seed of only disallowed characters sanitizes to the
empty stem and still yields the well-formed timestamp-only filename. -/
theorem c7_witness :
    generate_filename "@@@".toList "mp4".toList
        ⟨2025, 6, 1, 2, 3, 4⟩ =
      '_' :: (formatTimestamp ⟨2025, 6, 1, 2, 3, 4⟩ ++ '.' :: "mp4".toList) :=
  (c7_generate_filename "@@@".toList "mp4".toList
      ⟨2025, 6, 1, 2, 3, 4⟩).2.2.2.2 (by decide)

/-- C3: on a payload carrying both a non-empty generated_videos list and
a top-level video_data attribute the dispatch inspects only the first
generated item; the outcome equals the item dispatch and is unchanged
when the top-level video_data (and the videos list) are removed, so the
top-level video_data branch is never taken. -/
theorem c3_generated_items_precedence (save : List Nat → Bool)
    (net : List Char → List Char → Bool) (item : GeneratedVideo)
    (rest : List GeneratedVideo) (vd : VideoData)
    (vids : Option (List VideosItem)) :
    handleResult save net ⟨some (item :: rest), some vd, vids⟩ =
      handleItem save net item ∧
    handleResult save net ⟨some (item :: rest), some vd, vids⟩ =
      handleResult save net ⟨some (item :: rest), none, none⟩ :=
  ⟨rfl, rfl⟩

/-- C9: in every run of the polling loop each iteration sleeps for the
poll interval first and re-fetches the status second (the trace is
exactly m sleep-fetch pairs), the loop exits as soon as a fetch reports
done (every earlier fetched status was not done, and no fetch is issued
after the done one), and a job already done on entry produces an empty
trace: it is never slept on or re-polled. -/
theorem c9_poll_loop_ordering (interval : Nat) (f : Nat → PStatus)
    (fuel : Nat) (st : PStatus) :
    (isDone st = true → pollLoop interval f fuel 0 st = ([], some st)) ∧
    (∀ tr s, pollLoop interval f fuel 0 st = (tr, some s) →
       isDone s = true ∧
       ∃ m, tr = iterTrace interval m ∧
         (m = 0 → s = st) ∧
         (0 < m → isDone st = false ∧ s = f (m - 1) ∧
           ∀ j, j + 1 < m → isDone (f j) = false)) := by
  constructor
  · intro h
    cases fuel with
    | zero => simp [pollLoop, h]
    | succ fuel' => simp [pollLoop, h]
  · intro tr s h
    obtain ⟨hs, m, htr, hm0, hmpos⟩ := pollLoop_sound interval f fuel 0 st tr s h
    refine ⟨hs, m, htr, hm0, fun hp => ?_⟩
    obtain ⟨ha, hb, hc⟩ := hmpos hp
    refine ⟨ha, by simpa using hb, fun j hj => by simpa using hc j hj⟩

/-- C9 witness: a job that is done on entry yields an empty trace and
keeps its status. -/
theorem c9_witness :
    pollLoop 15 (fun _ => PStatus.pending) 5 0 PStatus.done =
      ([], some PStatus.done) :=
  (c9_poll_loop_ordering 15 (fun _ => PStatus.pending) 5 PStatus.done).1 rfl

/-- C1 counterexample: with a first generated item delivering its video
through the item-level video_data attribute and a save that fails (a
local write error), the run returns False, overall failure, refuting
the claim that no branch of the dispatch lets a failed save turn the
run into overall failure. -/
theorem c1_counterexample :
    handleResult (fun _ => false) (fun _ _ => false)
        ⟨some [⟨none, some (VideoData.bytes [1, 2, 3])⟩], none, none⟩ =
      some false ∧
    pyTruthyRet (handleResult (fun _ => false) (fun _ _ => false)
        ⟨some [⟨none, some (VideoData.bytes [1, 2, 3])⟩], none, none⟩) =
      false := by
  exact ⟨rfl, rfl⟩

/-- C1 amended: materialization failures are tolerated only in the two
video-object branches: with inline video_bytes a failed save still
returns True, and with a video URI a failed download still returns True;
but in the item-level video_data branch and in the top-level video_data
branch the boolean of save_video_data is returned directly, so a failed
save there makes the run fail. -/
theorem c1_materialization_tolerance (save : List Nat → Bool)
    (net : List Char → List Char → Bool) (item : GeneratedVideo)
    (rest : List GeneratedVideo) (vd : Option VideoData)
    (vids : Option (List VideosItem)) :
    (∀ v, item.video = some v → truthyBytes v.video_bytes = true →
       handleResult save net ⟨some (item :: rest), vd, vids⟩ = some true) ∧
    (∀ v, item.video = some v → truthyBytes v.video_bytes = false →
       truthyStr v.uri = true →
       handleResult save net ⟨some (item :: rest), vd, vids⟩ = some true) ∧
    (∀ bs, item.video = none → item.video_data = some (VideoData.bytes bs) →
       save bs = false →
       handleResult save net ⟨some (item :: rest), vd, vids⟩ = some false) ∧
    (∀ bs, save bs = false →
       handleResult save net ⟨none, some (VideoData.bytes bs), vids⟩ =
         some false) := by
  refine ⟨?_, ?_, ?_, ?_⟩
  · intro v hv hb
    show handleItem save net item = some true
    simp [handleItem, hv, hb]
  · intro v hv hb hu
    show handleItem save net item = some true
    simp [handleItem, hv, hb, hu]
  · intro bs hv hvd hs
    show handleItem save net item = some false
    simp [handleItem, saveVideoData, hv, hvd, hs]
  · intro bs hs
    show saveVideoData save (VideoData.bytes bs) = some false
    simp [saveVideoData, hs]

/-- C1 witness: inline video_bytes with a failing save still yields
True. -/
theorem c1_witness :
    handleResult (fun _ => false) (fun _ _ => false)
        ⟨some [⟨some ⟨some [1], none⟩, none⟩], none, none⟩ = some true :=
  (c1_materialization_tolerance (fun _ => false) (fun _ _ => false)
      ⟨some ⟨some [1], none⟩, none⟩ [] none none).1
    ⟨some [1], none⟩ rfl (by decide)

/-- C2 counterexample: a completed job whose generated_videos list is
non-empty but whose first item carries neither a video sub-object nor a
video_data attribute falls off the end of the dispatch: the function
returns the Python None, which is falsy, so the run is not reported as
success, refuting the claim that such payloads yield Empty and overall
success. -/
theorem c2_counterexample :
    handleResult (fun _ => true) (fun _ _ => true)
        ⟨some [⟨none, none⟩], none, none⟩ = none ∧
    pyTruthyRet (handleResult (fun _ => true) (fun _ _ => true)
        ⟨some [⟨none, none⟩], none, none⟩) = false := by
  exact ⟨rfl, rfl⟩

/-- C2 amended: a payload matching none of the three top-level shapes
does reach the success-with-no-artifact branch (True), and so does a
first generated item whose video object is present but carries neither
non-empty bytes nor a non-empty URI; but a non-empty generated_videos
list whose first item has neither a video object nor a video_data
attribute makes the dispatch fall through and return the falsy None, so
the run is not reported as success. -/
theorem c2_empty_payload (save : List Nat → Bool)
    (net : List Char → List Char → Bool) (r : OpResult)
    (item : GeneratedVideo) (rest : List GeneratedVideo) :
    (listGuard r.generated_videos = false → r.video_data = none →
       listGuard r.videos = false → handleResult save net r = some true) ∧
    (∀ v, r.generated_videos = some (item :: rest) → item.video = some v →
       truthyBytes v.video_bytes = false → truthyStr v.uri = false →
       handleResult save net r = some true) ∧
    (r.generated_videos = some (item :: rest) → item.video = none →
       item.video_data = none →
       handleResult save net r = none ∧
       pyTruthyRet (handleResult save net r) = false) := by
  obtain ⟨gv, vd, vids⟩ := r
  refine ⟨?_, ?_, ?_⟩
  · intro h1 h2 h3
    simp only at h1 h2 h3
    subst h2
    match gv, h1 with
    | none, _ =>
        match vids, h3 with
        | none, _ => rfl
        | some [], _ => rfl
    | some [], _ =>
        match vids, h3 with
        | none, _ => rfl
        | some [], _ => rfl
  · intro v h1 hv hb hu
    simp only at h1
    subst h1
    show handleItem save net item = some true
    simp [handleItem, hv, hb, hu]
  · intro h1 hv hvd
    simp only at h1
    subst h1
    have : handleResult save net ⟨some (item :: rest), vd, vids⟩ = none := by
      show handleItem save net item = none
      simp [handleItem, hv, hvd]
    exact ⟨this, by rw [this]; rfl⟩

/-- C2 witness: a payload with none of the recognized attributes yields
success with no artifact. -/
theorem c2_witness :
    handleResult (fun _ => true) (fun _ _ => true) ⟨none, none, none⟩ =
      some true :=
  (c2_empty_payload (fun _ => true) (fun _ _ => true) ⟨none, none, none⟩
      ⟨none, none⟩ []).1 rfl rfl rfl

/-- C4: for every byte sequence d, presenting the base64 encoding of d
as the textual video_data of a payload (item-level or top-level) makes
the dispatch decode it back to exactly d and hand exactly d to
save_video_data, so the bytes written to disk are d. -/
theorem c4_base64_roundtrip (save : List Nat → Bool)
    (net : List Char → List Char → Bool) (d : List Nat)
    (h : ∀ x ∈ d, x < 256) :
    handleResult save net
        ⟨some [⟨none, some (VideoData.text (b2a d))⟩], none, none⟩ =
      some (save d) ∧
    handleResult save net ⟨none, some (VideoData.text (b2a d)), none⟩ =
      some (save d) := by
  have hdec := b64decodePy_b2a d h
  constructor
  · show handleItem save net ⟨none, some (VideoData.text (b2a d))⟩ = _
    simp [handleItem, saveVideoData, hdec]
  · show saveVideoData save (VideoData.text (b2a d)) = _
    simp [saveVideoData, hdec]

/-- C4 witness: the bytes 0, 255, 77 survive the encode-classify-decode
round trip, and the save step receives exactly those bytes. -/
theorem c4_witness :
    handleResult (fun bs => decide (bs = [0, 255, 77])) (fun _ _ => false)
        ⟨some [⟨none, some (VideoData.text (b2a [0, 255, 77]))⟩], none,
          none⟩ = some true := by
  rw [(c4_base64_roundtrip (fun bs => decide (bs = [0, 255, 77]))
      (fun _ _ => false) [0, 255, 77] (by decide)).1]
  decide

/-- C5 counterexample: the string QUJD? is not valid standard base64
(the question mark is outside the alphabet), yet the lenient
base64.b64decode discards the foreign character and decodes the rest, so
classification does not fail and the run succeeds, refuting the claim
that every non-standard-base64 EncodedText payload is a fatal
classification error. -/
theorem c5_counterexample :
    isStdB64 "QUJD?".toList = false ∧
    handleResult (fun _ => true) (fun _ _ => false)
        ⟨some [⟨none, some (VideoData.text "QUJD?".toList)⟩], none, none⟩ =
      some true := by
  exact ⟨by decide, by decide⟩

/-- C5 amended: an EncodedText payload whose text fails the lenient
Python base64 decode (after foreign characters are discarded, the data
character count is 1 modulo 4, or 2 or 3 modulo 4 without a completing
pad sequence, or the text is not ASCII) raises through the dispatch to
the blanket except of the generating function, which returns False: the
run reports failure, never a silent Empty success.  This holds in the
item-level and in the top-level video_data branch. -/
theorem c5_decode_failure_is_fatal (save : List Nat → Bool)
    (net : List Char → List Char → Bool) (s : List Char)
    (h : b64decodePy s = none) :
    handleResult save net
        ⟨some [⟨none, some (VideoData.text s)⟩], none, none⟩ = some false ∧
    handleResult save net ⟨none, some (VideoData.text s), none⟩ =
      some false := by
  constructor
  · show handleItem save net ⟨none, some (VideoData.text s)⟩ = some false
    simp [handleItem, saveVideoData, h]
  · show saveVideoData save (VideoData.text s) = some false
    simp [saveVideoData, h]

/-- C5 witness: the three-character text QUJ ends with a partial quad,
its decode fails, and the run reports failure. -/
theorem c5_witness :
    handleResult (fun _ => true) (fun _ _ => false)
        ⟨some [⟨none, some (VideoData.text "QUJ".toList)⟩], none, none⟩ =
      some false :=
  (c5_decode_failure_is_fatal (fun _ => true) (fun _ _ => false)
      "QUJ".toList (by decide)).1

/-- C8 counterexample: a payload carrying only a non-empty videos list
whose first element has a gcsUri, with the fetch failing, returns the
falsy None in the text-to-video dispatch but True (success, no artifact)
in the image-to-video dispatch, refuting the claim that the two paths
classify every payload identically and that every recognized shape is
handled by both. -/
theorem c8_counterexample :
    handleResult (fun _ => true) (fun _ _ => false)
        ⟨none, none, some [⟨some (some "gs://b/k".toList), none⟩]⟩ = none ∧
    handleResultImage (fun _ => true) (fun _ _ => false)
        ⟨none, none, some [⟨some (some "gs://b/k".toList), none⟩]⟩ =
      some true ∧
    (none : Option Bool) ≠ some true := by
  refine ⟨by decide, rfl, by decide⟩

/-- C8 amended: the text and image result handlers agree (same
classification, same outcome) on every payload where the generated-items
guard fires, or a top-level video_data attribute is present, or no
non-empty videos list exists, and they differ only in the filename seed
(the image path prepends image_to_video_ to the prompt); but the image
path lacks the videos-list branch, so a payload carrying only a
non-empty videos list is handled differently. -/
theorem c8_paths_agree_off_videos (save : List Nat → Bool)
    (net : List Char → List Char → Bool) (r : OpResult)
    (h : listGuard r.generated_videos = true ∨ r.video_data.isSome = true ∨
      listGuard r.videos = false) :
    handleResult save net r = handleResultImage save net r ∧
    (∀ p t, text_local_filename p t = generate_filename p "mp4".toList t) ∧
    (∀ p t, image_local_filename p t =
       generate_filename ("image_to_video_".toList ++ p) "mp4".toList t) := by
  refine ⟨?_, fun p t => rfl, fun p t => rfl⟩
  obtain ⟨gv, vd, vids⟩ := r
  rcases gv with _ | gvl
  · rcases vd with _ | vd0
    · rcases vids with _ | vl
      · rfl
      · rcases vl with _ | ⟨x, xs⟩
        · rfl
        · simp [listGuard] at h
    · rfl
  · rcases gvl with _ | ⟨item1, rest1⟩
    · rcases vd with _ | vd0
      · rcases vids with _ | vl
        · rfl
        · rcases vl with _ | ⟨x, xs⟩
          · rfl
          · simp [listGuard] at h
      · rfl
    · rfl

/-- C8 witness: on a top-level video_data payload the two dispatches
agree. -/
theorem c8_witness :
    handleResult (fun _ => true) (fun _ _ => false)
        ⟨none, some (VideoData.bytes [1]), none⟩ =
      handleResultImage (fun _ => true) (fun _ _ => false)
        ⟨none, some (VideoData.bytes [1]), none⟩ :=
  (c8_paths_agree_off_videos (fun _ => true) (fun _ _ => false)
      ⟨none, some (VideoData.bytes [1]), none⟩ (Or.inr (Or.inl rfl))).1

end Veo
